import Mathlib

/-!
Verification development for the launch-lock token-info registrar program
(src/src/lib.rs). The single instruction handler is embedded shallowly:

* addresses (Pubkey) are byte lists; strings are their UTF-8 byte lists;
* the external ledger services (address derivation, base58 textual form of
  a key, the clock sysvar, rent accounting) are supplied through an `Env`
  record of pure functions, since their code is outside this repository;
* the two base-system sub-calls (fee transfer, account creation) and the
  final data write are recorded as an `Effect` trace; the handler returns
  the pair (result, trace).  Sub-calls are modelled as succeeding, matching
  the spec: a sub-call failure aborts the whole transaction and is handled
  by the host, outside this core;
* Borsh serialization follows the derive layout of the source structs:
  1-byte enum tag, 4-byte little-endian length-prefixed strings and
  vectors, 8-byte little-endian two complement i64; serialization fails
  when a length does not fit in a u32, deserialization (try_from_slice)
  requires the whole buffer to be consumed.
-/

namespace LaunchLock

/-- Addresses are 32-byte values; modelled as byte lists. -/
abbrev Pubkey := List Nat

/-- src/src/lib.rs line 24: the fixed fee receiver address. -/
def FEE_RECEIVER : Pubkey :=
  [183, 231, 26, 4, 170, 254, 122, 189, 151, 227, 199, 150, 219, 140, 137, 241, 208, 247, 231,
   185, 96, 41, 98, 183, 121, 165, 132, 99, 187, 65, 128, 48]

/-- src/src/lib.rs line 29: the fixed authority address. -/
def AUTHORITY : Pubkey :=
  [115, 70, 176, 17, 40, 35, 186, 108, 103, 93, 119, 77, 253, 9, 55, 46, 172, 41, 201, 158, 104,
   244, 46, 182, 56, 25, 197, 36, 89, 84, 13, 104]

/-- src/src/lib.rs line 34. -/
def MAGIC_BYTE : Nat := 0xAB

/-- src/src/lib.rs line 35. -/
def DATA_VERSION : Nat := 1

/-- src/src/lib.rs line 38: the program error enum. -/
inductive TokenInfoError
  | InvalidInstruction
  | AccountAlreadyExists
  | InsufficientFunds
  | InvalidLinkData
deriving DecidableEq

/-- Rust discriminants of `TokenInfoError` (`e as u32`). -/
def TokenInfoError.toNat : TokenInfoError → Nat
  | .InvalidInstruction => 0
  | .AccountAlreadyExists => 1
  | .InsufficientFunds => 2
  | .InvalidLinkData => 3

/-- The solana `ProgramError` constructors used by this program. -/
inductive ProgramError
  | Custom (code : Nat)
  | InvalidArgument
  | MissingRequiredSignature
  | InvalidAccountData
  | InvalidInstructionData
  | NotEnoughAccountKeys
  | BorshIoError
deriving DecidableEq

/-- src/src/lib.rs line 45: `From<TokenInfoError> for ProgramError`. -/
def TokenInfoError.toProgramError (e : TokenInfoError) : ProgramError :=
  ProgramError.Custom e.toNat

/-- src/src/lib.rs line 52. Strings are UTF-8 byte lists. -/
structure Images where
  icon : List Nat
  header : List Nat
deriving DecidableEq

/-- src/src/lib.rs line 58. -/
structure Link where
  label : List Nat
  url : List Nat
deriving DecidableEq

/-- src/src/lib.rs line 64. -/
structure TokenInfoV1 where
  mint : List Nat
  description : List Nat
  links : List Link
  images : Images
  creation_timestamp : Int
  update_timestamp : Int
deriving DecidableEq

/-- src/src/lib.rs line 74. -/
inductive TokenInfo
  | V1 (v : TokenInfoV1)
deriving DecidableEq

/-- src/src/lib.rs line 79: the instruction enum. -/
inductive Instruction
  | CreateInfo (description : List Nat) (links : List Link)
      (icon_uri : List Nat) (header_uri : List Nat)
deriving DecidableEq

/-! ### Borsh serialization (layout of the derived impls) -/

/-- 4-byte little-endian encoding of a u32 value. -/
def u32le (n : Nat) : List Nat :=
  [n % 256, n / 256 % 256, n / 65536 % 256, n / 16777216 % 256]

/-- 8-byte little-endian encoding of a natural below 2^64. -/
def u64le (n : Nat) : List Nat :=
  [n % 256, n / 256 % 256, n / 65536 % 256, n / 16777216 % 256,
   n / 4294967296 % 256, n / 1099511627776 % 256,
   n / 281474976710656 % 256, n / 72057594037927936 % 256]

/-- 8-byte little-endian two-complement encoding of an i64: the
representative modulo 2^64, little-endian. -/
def i64le (i : Int) : List Nat :=
  u64le ((i % (18446744073709551616 : Int)).toNat)

/-- Borsh String: u32 byte length then the bytes; fails when the length does
not fit in a u32 (2^32). -/
def serString (s : List Nat) : Option (List Nat) :=
  if s.length < 4294967296 then some (u32le s.length ++ s) else none

/-- Borsh `Link`: the two string fields in order. -/
def serLink (l : Link) : Option (List Nat) := do
  let a ← serString l.label
  let b ← serString l.url
  pure (a ++ b)

/-- Concatenated Borsh encodings of a list of links. -/
def serLinkList : List Link → Option (List Nat)
  | [] => some []
  | l :: ls => do
    let a ← serLink l
    let b ← serLinkList ls
    pure (a ++ b)

/-- Borsh `Vec<Link>`: u32 count then the elements. -/
def serVecLink (ls : List Link) : Option (List Nat) :=
  if ls.length < 4294967296 then do
    let b ← serLinkList ls
    pure (u32le ls.length ++ b)
  else none

/-- Borsh `Images`: the two string fields in order. -/
def serImages (im : Images) : Option (List Nat) := do
  let a ← serString im.icon
  let b ← serString im.header
  pure (a ++ b)

/-- Borsh `TokenInfoV1`: mint, description, links, images, two i64 stamps. -/
def serTokenInfoV1 (v : TokenInfoV1) : Option (List Nat) := do
  let m ← serString v.mint
  let d ← serString v.description
  let ls ← serVecLink v.links
  let im ← serImages v.images
  pure (m ++ d ++ ls ++ im ++ i64le v.creation_timestamp ++ i64le v.update_timestamp)

/-- Borsh `TokenInfo`: 1-byte variant tag (V1 = 0) then the payload. -/
def serTokenInfo : TokenInfo → Option (List Nat)
  | .V1 v => do
    let b ← serTokenInfoV1 v
    pure (0 :: b)

/-- Borsh `Instruction`: 1-byte variant tag (CreateInfo = 0) then the fields. -/
def serInstruction : Instruction → Option (List Nat)
  | .CreateInfo d ls ic hd => do
    let db ← serString d
    let lb ← serVecLink ls
    let ib ← serString ic
    let hb ← serString hd
    pure (0 :: (db ++ lb ++ ib ++ hb))

/-! ### Borsh deserialization of `Instruction` (`try_from_slice`) -/

/-- Read one byte. -/
def parseU8 : List Nat → Option (Nat × List Nat)
  | [] => none
  | b :: rest => some (b, rest)

/-- Read a 4-byte little-endian u32. -/
def parseU32 : List Nat → Option (Nat × List Nat)
  | b0 :: b1 :: b2 :: b3 :: rest =>
    some (b0 + 256 * b1 + 65536 * b2 + 16777216 * b3, rest)
  | _ => none

/-- Read exactly `n` bytes. -/
def parseBytes (n : Nat) (bs : List Nat) : Option (List Nat × List Nat) :=
  if n ≤ bs.length then some (bs.take n, bs.drop n) else none

/-- Read a Borsh string: u32 length then that many bytes. -/
def parseString (bs : List Nat) : Option (List Nat × List Nat) := do
  let (n, r) ← parseU32 bs
  parseBytes n r

/-- Read a Borsh `Link`. -/
def parseLink (bs : List Nat) : Option (Link × List Nat) := do
  let (a, r1) ← parseString bs
  let (b, r2) ← parseString r1
  pure (⟨a, b⟩, r2)

/-- Read `n` consecutive Borsh links. -/
def parseLinks : Nat → List Nat → Option (List Link × List Nat)
  | 0, bs => some ([], bs)
  | n + 1, bs => do
    let (l, r1) ← parseLink bs
    let (ls, r2) ← parseLinks n r1
    pure (l :: ls, r2)

/-- Read a Borsh `Instruction`: tag 0 then the four fields. -/
def parseInstruction (bs : List Nat) : Option (Instruction × List Nat) := do
  let (tag, r0) ← parseU8 bs
  if tag = 0 then do
    let (d, r1) ← parseString r0
    let (cnt, r2) ← parseU32 r1
    let (ls, r3) ← parseLinks cnt r2
    let (ic, r4) ← parseString r3
    let (hd, r5) ← parseString r4
    pure (Instruction.CreateInfo d ls ic hd, r5)
  else none

/-- src/src/lib.rs line 97: `Instruction::try_from_slice(data)` mapped to
`ProgramError::InvalidInstructionData`; `try_from_slice` requires the whole
buffer to be consumed. -/
def decodeInstruction (bs : List Nat) : Except ProgramError Instruction :=
  match parseInstruction bs with
  | some (i, []) => Except.ok i
  | _ => Except.error ProgramError.InvalidInstructionData

/-! ### Accounts, environment, effects -/

/-- The fields of solana `AccountInfo` read by this program. -/
structure AccountInfo where
  key : Pubkey
  is_signer : Bool
  lamports : Nat
  data : List Nat
  owner : Pubkey
deriving DecidableEq

/-- External ledger services used by the handler, supplied as pure
functions: program-derived-address search, base58 textual form of a key,
the clock sysvar, and rent accounting.  Their code lives outside this
repository. -/
structure Env where
  findProgramAddress : List (List Nat) → Pubkey → Pubkey × Nat
  pubkeyToString : Pubkey → List Nat
  clockUnixTimestamp : Int
  rentMinimumBalance : Nat → Nat

/-- The seed literal `b"token_info"`. -/
def tokenInfoSeed : List Nat := [116, 111, 107, 101, 110, 95, 105, 110, 102, 111]

/-- src/src/lib.rs line 88: derive the record address for a mint. -/
def find_info_account (env : Env) (mint program_id : Pubkey) : Pubkey × Nat :=
  env.findProgramAddress [tokenInfoSeed, mint] program_id

/-- A mutating sub-call (or the final data write) issued by the handler. -/
inductive Effect
  | transfer (source dest : Pubkey) (amount : Nat)
  | createAccount (funder target : Pubkey) (lamports space : Nat) (owner : Pubkey)
  | writeData (target : Pubkey) (bytes : List Nat)
deriving DecidableEq

/-- src/src/lib.rs line 159: the fixed fee (a local constant in the source). -/
def fee_amount : Nat := 100000000

/-- src/src/lib.rs line 117: the CreateInfo handler.  Returns the result
together with the ordered trace of mutating sub-calls it issued.  The
checks appear in source order: payer signer, authority signer, authority
constant, fee-receiver constant, payer balance, then the fee transfer,
then derived-address match, record-data empty, record owner, then the
record is built, serialized, created and written. -/
def process_create_info (env : Env) (program_id : Pubkey) (accounts : List AccountInfo)
    (description : List Nat) (links : List Link) (icon_uri header_uri : List Nat) :
    Except ProgramError Unit × List Effect :=
  match accounts with
  | payer :: authority :: mint :: info :: sys :: feeRecv :: _ =>
    if payer.is_signer = false then
      (Except.error ProgramError.MissingRequiredSignature, [])
    else if authority.is_signer = false then
      (Except.error ProgramError.MissingRequiredSignature, [])
    else if authority.key ≠ AUTHORITY then
      (Except.error ProgramError.InvalidArgument, [])
    else if feeRecv.key ≠ FEE_RECEIVER then
      (Except.error ProgramError.InvalidArgument, [])
    else if payer.lamports < fee_amount then
      (Except.error TokenInfoError.InsufficientFunds.toProgramError, [])
    else
      let feeEff := Effect.transfer payer.key feeRecv.key fee_amount
      let derived := find_info_account env mint.key program_id
      if derived.1 ≠ info.key then
        (Except.error ProgramError.InvalidArgument, [feeEff])
      else if info.data ≠ [] then
        (Except.error TokenInfoError.AccountAlreadyExists.toProgramError, [feeEff])
      else if info.owner ≠ sys.key then
        (Except.error ProgramError.InvalidAccountData, [feeEff])
      else
        let ts := env.clockUnixTimestamp
        let record : TokenInfoV1 :=
          ⟨env.pubkeyToString mint.key, description, links, ⟨icon_uri, header_uri⟩, ts, ts⟩
        match serTokenInfo (TokenInfo.V1 record) with
        | none => (Except.error ProgramError.BorshIoError, [feeEff])
        | some body =>
          let serialized := MAGIC_BYTE :: DATA_VERSION :: body
          let lamports := env.rentMinimumBalance serialized.length
          (Except.ok (),
           [feeEff,
            Effect.createAccount payer.key info.key lamports serialized.length program_id,
            Effect.writeData info.key serialized])
  | _ => (Except.error ProgramError.NotEnoughAccountKeys, [])

/-- src/src/lib.rs line 92: decode, then dispatch to the handler. -/
def process_instruction (env : Env) (program_id : Pubkey) (accounts : List AccountInfo)
    (instruction_data : List Nat) : Except ProgramError Unit × List Effect :=
  match decodeInstruction instruction_data with
  | Except.error e => (Except.error e, [])
  | Except.ok (Instruction.CreateInfo d ls ic hd) =>
    process_create_info env program_id accounts d ls ic hd

/-! ### Ledger-state semantics of the effects -/

/-- On-ledger state of one account. -/
structure StoredAccount where
  lamports : Nat
  data : List Nat
  owner : Pubkey
deriving DecidableEq

/-- Point update of a ledger state. -/
def updAcct (st : Pubkey → StoredAccount) (k : Pubkey) (a : StoredAccount) :
    Pubkey → StoredAccount :=
  fun x => if x = k then a else st x

/-- Modelled from the spec: the base system component primitives (lamport
transfer and account creation, sections 4.4 and 4.6 of the spec) and the
final verbatim data write, as transformations of the ledger state. -/
def applyEffect (st : Pubkey → StoredAccount) : Effect → (Pubkey → StoredAccount)
  | .transfer s d a =>
    let st1 := updAcct st s { st s with lamports := (st s).lamports - a }
    updAcct st1 d { st1 d with lamports := (st1 d).lamports + a }
  | .createAccount f t l sp ow =>
    let st1 := updAcct st f { st f with lamports := (st f).lamports - l }
    updAcct st1 t { lamports := (st1 t).lamports + l, data := List.replicate sp 0, owner := ow }
  | .writeData t bytes =>
    updAcct st t { st t with data := bytes }

/-- Apply a trace of effects in order. -/
def applyEffects (st : Pubkey → StoredAccount) (effs : List Effect) :
    Pubkey → StoredAccount :=
  effs.foldl applyEffect st

/-- Checks 1-5 of the validator: payer signer, authority signer, authority
constant, fee-receiver constant, payer balance at least the fee. -/
def checksPre (payer authority feeRecv : AccountInfo) : Prop :=
  payer.is_signer = true ∧ authority.is_signer = true ∧
  authority.key = AUTHORITY ∧ feeRecv.key = FEE_RECEIVER ∧
  fee_amount ≤ payer.lamports

instance (p a f : AccountInfo) : Decidable (checksPre p a f) := by
  unfold checksPre; infer_instance

/-! ### Concrete fixtures used by witnesses and counterexamples -/

/-- Environment whose derivation returns the key of the test record account. -/
def envTest : Env :=
  { findProgramAddress := fun _ _ => ([4], 254),
    pubkeyToString := fun _ => [77],
    clockUnixTimestamp := 5,
    rentMinimumBalance := fun n => n }

/-- Environment whose derivation returns a key different from the test record
account key, so the derived-address check fails. -/
def envMismatch : Env :=
  { findProgramAddress := fun _ _ => ([9], 254),
    pubkeyToString := fun _ => [77],
    clockUnixTimestamp := 5,
    rentMinimumBalance := fun n => n }

def payerRich : AccountInfo :=
  { key := [1], is_signer := true, lamports := fee_amount, data := [], owner := [9] }

def payerPoor : AccountInfo :=
  { key := [1], is_signer := true, lamports := 0, data := [], owner := [9] }

def authAcct : AccountInfo :=
  { key := AUTHORITY, is_signer := true, lamports := 0, data := [], owner := [9] }

def mintAcct : AccountInfo :=
  { key := [3], is_signer := false, lamports := 0, data := [], owner := [9] }

def infoEmpty : AccountInfo :=
  { key := [4], is_signer := false, lamports := 0, data := [], owner := [5] }

def infoUsed : AccountInfo :=
  { key := [4], is_signer := false, lamports := 1, data := [171], owner := [5] }

def sysAcct : AccountInfo :=
  { key := [5], is_signer := false, lamports := 0, data := [], owner := [9] }

def feeAcct : AccountInfo :=
  { key := FEE_RECEIVER, is_signer := false, lamports := 0, data := [], owner := [9] }

/-- Initial ledger state for counterexample evaluation. -/
def stInit : Pubkey → StoredAccount := fun _ => ⟨fee_amount, [], [0]⟩

/-! ### Helper lemmas -/

lemma bool_true_of_not_false {b : Bool} (h : ¬ b = false) : b = true := by
  cases b
  · exact absurd rfl h
  · rfl

lemma checksPre_of_neg {p a f : AccountInfo}
    (h1 : ¬ p.is_signer = false) (h2 : ¬ a.is_signer = false)
    (h3 : ¬ a.key ≠ AUTHORITY) (h4 : ¬ f.key ≠ FEE_RECEIVER)
    (h5 : ¬ p.lamports < fee_amount) : checksPre p a f :=
  ⟨bool_true_of_not_false h1, bool_true_of_not_false h2,
   not_not.mp h3, not_not.mp h4, not_lt.mp h5⟩

/-! ### Claim theorems -/

/-- Claim C9: find_info_account is deterministic: identical (token identifier,
program identity) inputs always return the identical (address, bump) pair.
In the embedding the platform derivation rule is a pure function of the
environment, so two calls with equal arguments agree. -/
theorem find_info_account_deterministic :
    ∀ (env : Env) (m1 m2 pid1 pid2 : Pubkey), m1 = m2 → pid1 = pid2 →
      find_info_account env m1 pid1 = find_info_account env m2 pid2 := by
  intro env m1 m2 pid1 pid2 hm hp
  rw [hm, hp]

/-- Witness for C9 at concrete inputs. -/
theorem find_info_account_deterministic_witness :
    find_info_account envTest [3] [7] = find_info_account envTest [3] [7] :=
  find_info_account_deterministic envTest [3] [3] [7] [7] rfl rfl

/-- Claim C10: with fewer than six accounts the handler fails with
NotEnoughAccountKeys, performs no validation check and issues no mutating
sub-call, so applying its (empty) trace leaves every balance and every
account datum unchanged. -/
theorem too_few_accounts_no_mutation :
    ∀ (env : Env) (pid : Pubkey) (accounts : List AccountInfo)
      (d : List Nat) (l : List Link) (ic hd : List Nat),
      accounts.length < 6 →
      process_create_info env pid accounts d l ic hd =
        (Except.error ProgramError.NotEnoughAccountKeys, []) ∧
      ∀ st : Pubkey → StoredAccount,
        applyEffects st (process_create_info env pid accounts d l ic hd).snd = st := by
  intro env pid accounts d l ic hd h
  have heq : process_create_info env pid accounts d l ic hd =
      (Except.error ProgramError.NotEnoughAccountKeys, []) := by
    match accounts with
    | [] => rfl
    | [a1] => rfl
    | [a1, a2] => rfl
    | [a1, a2, a3] => rfl
    | [a1, a2, a3, a4] => rfl
    | [a1, a2, a3, a4, a5] => rfl
    | a1 :: a2 :: a3 :: a4 :: a5 :: a6 :: rest => simp at h; omega
  exact ⟨heq, fun st => by simp [heq, applyEffects]⟩

/-- Witness for C10: the empty account list. -/
theorem too_few_accounts_no_mutation_witness :
    process_create_info envTest [7] [] [] [] [] [] =
      (Except.error ProgramError.NotEnoughAccountKeys, []) :=
  (too_few_accounts_no_mutation envTest [7] [] [] [] [] [] (by decide)).1

/-- Claim C3: when checks 1-4 pass and the payer balance is below the fixed
fee, the handler fails with InsufficientFunds (Custom 2) with an empty
effect trace: the fee transfer was never attempted, no balance changes and
no record account is created. -/
theorem insufficient_funds_aborts_clean :
    ∀ (env : Env) (pid : Pubkey) (p a m i s f : AccountInfo) (rest : List AccountInfo)
      (d : List Nat) (l : List Link) (ic hd : List Nat),
      p.is_signer = true → a.is_signer = true →
      a.key = AUTHORITY → f.key = FEE_RECEIVER →
      p.lamports < fee_amount →
      process_create_info env pid (p :: a :: m :: i :: s :: f :: rest) d l ic hd =
        (Except.error TokenInfoError.InsufficientFunds.toProgramError, []) ∧
      ∀ st : Pubkey → StoredAccount,
        applyEffects st
          (process_create_info env pid (p :: a :: m :: i :: s :: f :: rest) d l ic hd).snd
          = st := by
  intro env pid p a m i s f rest d l ic hd h1 h2 h3 h4 h5
  have heq : process_create_info env pid (p :: a :: m :: i :: s :: f :: rest) d l ic hd =
      (Except.error TokenInfoError.InsufficientFunds.toProgramError, []) := by
    simp [process_create_info, h1, h2, h3, h4, h5]
  exact ⟨heq, fun st => by simp [heq, applyEffects]⟩

/-- Witness for C3: a payer with zero lamports. -/
theorem insufficient_funds_aborts_clean_witness :
    process_create_info envTest [7] [payerPoor, authAcct, mintAcct, infoEmpty, sysAcct, feeAcct]
        [] [] [] [] =
      (Except.error TokenInfoError.InsufficientFunds.toProgramError, []) :=
  (insufficient_funds_aborts_clean envTest [7] payerPoor authAcct mintAcct infoEmpty sysAcct
    feeAcct [] [] [] [] [] rfl rfl rfl rfl (by decide)).1

/-- Claim C4: a non-signing payer or authority yields MissingRequiredSignature
(the MissingSignature of the spec); a wrong authority constant, wrong
fee-receiver constant, or a record address different from the derived
address yields InvalidArgument, all other fields being valid. -/
theorem validation_error_codes :
    ∀ (env : Env) (pid : Pubkey) (p a m i s f : AccountInfo) (rest : List AccountInfo)
      (d : List Nat) (l : List Link) (ic hd : List Nat),
      ((p.is_signer = false ∨ a.is_signer = false) →
        (process_create_info env pid (p :: a :: m :: i :: s :: f :: rest) d l ic hd).fst =
          Except.error ProgramError.MissingRequiredSignature) ∧
      (p.is_signer = true → a.is_signer = true → a.key ≠ AUTHORITY →
        (process_create_info env pid (p :: a :: m :: i :: s :: f :: rest) d l ic hd).fst =
          Except.error ProgramError.InvalidArgument) ∧
      (p.is_signer = true → a.is_signer = true → a.key = AUTHORITY →
        f.key ≠ FEE_RECEIVER →
        (process_create_info env pid (p :: a :: m :: i :: s :: f :: rest) d l ic hd).fst =
          Except.error ProgramError.InvalidArgument) ∧
      (checksPre p a f → (find_info_account env m.key pid).1 ≠ i.key →
        (process_create_info env pid (p :: a :: m :: i :: s :: f :: rest) d l ic hd).fst =
          Except.error ProgramError.InvalidArgument) := by
  intro env pid p a m i s f rest d l ic hd
  refine ⟨?_, ?_, ?_, ?_⟩
  · intro hsig
    rcases hsig with hp | ha
    · simp [process_create_info, hp]
    · by_cases hp : p.is_signer = false
      · simp [process_create_info, hp]
      · simp [process_create_info, hp, ha]
  · intro h1 h2 h3
    simp [process_create_info, h1, h2, h3]
  · intro h1 h2 h3 h4
    simp [process_create_info, h1, h2, h3, h4]
  · intro hpre hmis
    obtain ⟨h1, h2, h3, h4, h5⟩ := hpre
    have h5' : ¬ p.lamports < fee_amount := not_lt.mpr h5
    simp [process_create_info, h1, h2, h3, h4, h5', hmis]

/-- Witness for C4: a derived-address mismatch at concrete input. -/
theorem validation_error_codes_witness :
    (process_create_info envMismatch [7]
        [payerRich, authAcct, mintAcct, infoEmpty, sysAcct, feeAcct] [] [] [] []).fst =
      Except.error ProgramError.InvalidArgument :=
  (validation_error_codes envMismatch [7] payerRich authAcct mintAcct infoEmpty sysAcct
    feeAcct [] [] [] [] []).2.2.2 (by decide) (by decide)

/-- Counterexample to C1 as stated: at this concrete input the derived
address (check 6) does not match the supplied record address, yet the
returned trace shows the fee-transfer sub-call was already issued before
that check ran. -/
theorem fee_transfer_before_derived_check :
    process_create_info envMismatch [7]
        [payerRich, authAcct, mintAcct, infoEmpty, sysAcct, feeAcct] [] [] [] [] =
      (Except.error ProgramError.InvalidArgument,
       [Effect.transfer [1] FEE_RECEIVER fee_amount]) ∧
    (process_create_info envMismatch [7]
        [payerRich, authAcct, mintAcct, infoEmpty, sysAcct, feeAcct] [] [] [] []).snd ≠ [] := by
  constructor
  · rfl
  · simp [process_create_info, envMismatch, payerRich, authAcct, mintAcct, infoEmpty, sysAcct,
      feeAcct, find_info_account, AUTHORITY, FEE_RECEIVER, fee_amount]

/-- Claim C1 amended: no mutating sub-call is issued before checks 1-4 and
the balance check 5 have passed (an empty trace otherwise), and the
account-creation and data-write sub-calls are issued only on a fully
successful run; the fee transfer, however, is issued before checks 6-8:
on every input where checks 1-5 pass and the derived-address, data-empty
or owner predicate fails, the trace is exactly the already-issued fee
transfer. -/
theorem mutation_only_after_prechecks :
    ∀ (env : Env) (pid : Pubkey) (p a m i s f : AccountInfo) (rest : List AccountInfo)
      (d : List Nat) (l : List Link) (ic hd : List Nat),
      ((process_create_info env pid (p :: a :: m :: i :: s :: f :: rest) d l ic hd).snd ≠ [] →
        checksPre p a f) ∧
      ((process_create_info env pid (p :: a :: m :: i :: s :: f :: rest) d l ic hd).fst ≠
          Except.ok () →
        (process_create_info env pid (p :: a :: m :: i :: s :: f :: rest) d l ic hd).snd = [] ∨
        (process_create_info env pid (p :: a :: m :: i :: s :: f :: rest) d l ic hd).snd =
          [Effect.transfer p.key f.key fee_amount]) ∧
      (checksPre p a f →
        ((find_info_account env m.key pid).1 ≠ i.key ∨ i.data ≠ [] ∨ i.owner ≠ s.key) →
        (process_create_info env pid (p :: a :: m :: i :: s :: f :: rest) d l ic hd).snd =
          [Effect.transfer p.key f.key fee_amount]) := by
  intro env pid p a m i s f rest d l ic hd
  simp only [process_create_info]
  split_ifs with h1 h2 h3 h4 h5 h6 h7 h8
  · exact ⟨by simp, by simp, fun hpre _ => by simp [checksPre, h1] at hpre⟩
  · exact ⟨by simp, by simp, fun hpre _ => by simp [checksPre, h2] at hpre⟩
  · exact ⟨by simp, by simp, fun hpre _ => by simp [checksPre, h3] at hpre⟩
  · exact ⟨by simp, by simp, fun hpre _ => by simp [checksPre, h4] at hpre⟩
  · exact ⟨by simp, by simp,
      fun hpre _ => absurd hpre.2.2.2.2 (by omega)⟩
  · exact ⟨fun _ => checksPre_of_neg h1 h2 h3 h4 h5, fun _ => Or.inr rfl,
      fun _ _ => rfl⟩
  · exact ⟨fun _ => checksPre_of_neg h1 h2 h3 h4 h5, fun _ => Or.inr rfl,
      fun _ _ => rfl⟩
  · exact ⟨fun _ => checksPre_of_neg h1 h2 h3 h4 h5, fun _ => Or.inr rfl,
      fun _ _ => rfl⟩
  · split
    · refine ⟨fun _ => checksPre_of_neg h1 h2 h3 h4 h5, fun _ => Or.inr rfl, ?_⟩
      intro _ hdisj
      rcases hdisj with hx | hx | hx
      · exact absurd hx h6
      · exact absurd hx h7
      · exact absurd hx h8
    · refine ⟨fun _ => checksPre_of_neg h1 h2 h3 h4 h5, fun h => absurd rfl h, ?_⟩
      intro _ hdisj
      rcases hdisj with hx | hx | hx
      · exact absurd hx h6
      · exact absurd hx h7
      · exact absurd hx h8

/-- Witness for amended C1: at a concrete input passing checks 1-5 and
failing check 6, the theorem yields that the trace is exactly the fee
transfer. -/
theorem mutation_only_after_prechecks_witness :
    (process_create_info envMismatch [7]
        [payerRich, authAcct, mintAcct, infoEmpty, sysAcct, feeAcct] [] [] [] []).snd =
      [Effect.transfer payerRich.key feeAcct.key fee_amount] :=
  (mutation_only_after_prechecks envMismatch [7] payerRich authAcct mintAcct infoEmpty
    sysAcct feeAcct [] [] [] [] []).2.2 (by decide) (by decide)

/-- Counterexample to C2 as stated: at this concrete input the record data
is non-empty and the handler does return AccountAlreadyExists (Custom 1),
but its own fee-transfer sub-call has already moved the fee, so the payer
balance after applying the handler trace differs from before. -/
theorem already_exists_lamports_moved :
    (process_create_info envTest [7]
        [payerRich, authAcct, mintAcct, infoUsed, sysAcct, feeAcct] [] [] [] []).fst =
      Except.error (ProgramError.Custom 1) ∧
    ((applyEffects stInit
        (process_create_info envTest [7]
          [payerRich, authAcct, mintAcct, infoUsed, sysAcct, feeAcct] [] [] [] []).snd) [1]).lamports ≠
      (stInit [1]).lamports := by
  constructor
  · rfl
  · decide

/-- Claim C2 amended: when checks 1-5 pass, the supplied record address
equals the derived one, and the record data is non-empty, the handler
fails with AccountAlreadyExists (Custom 1); however the fee-transfer
sub-call has already been issued on that attempt (its rollback is the
enclosing transaction, outside this core), so the trace is exactly the fee
transfer. -/
theorem already_exists_error_after_fee :
    ∀ (env : Env) (pid : Pubkey) (p a m i s f : AccountInfo) (rest : List AccountInfo)
      (d : List Nat) (l : List Link) (ic hd : List Nat),
      checksPre p a f →
      (find_info_account env m.key pid).1 = i.key →
      i.data ≠ [] →
      process_create_info env pid (p :: a :: m :: i :: s :: f :: rest) d l ic hd =
        (Except.error TokenInfoError.AccountAlreadyExists.toProgramError,
         [Effect.transfer p.key f.key fee_amount]) := by
  intro env pid p a m i s f rest d l ic hd hpre haddr hdata
  obtain ⟨h1, h2, h3, h4, h5⟩ := hpre
  have h5' : ¬ p.lamports < fee_amount := not_lt.mpr h5
  simp [process_create_info, h1, h2, h3, h4, h5', haddr, hdata]

/-- Witness for amended C2 at a concrete second-creation input. -/
theorem already_exists_error_after_fee_witness :
    process_create_info envTest [7]
        [payerRich, authAcct, mintAcct, infoUsed, sysAcct, feeAcct] [] [] [] [] =
      (Except.error TokenInfoError.AccountAlreadyExists.toProgramError,
       [Effect.transfer payerRich.key feeAcct.key fee_amount]) :=
  already_exists_error_after_fee envTest [7] payerRich authAcct mintAcct infoUsed sysAcct
    feeAcct [] [] [] [] [] (by decide) (by decide) (by decide)

/-- Characterization of a successful run: the serializer succeeded on the
record built from the textual mint, the instruction fields and the clock
timestamp (used for both stamps), and the trace is exactly fee transfer,
account creation sized and owned for the encoding, and the verbatim data
write. -/
lemma create_success_trace :
    ∀ (env : Env) (pid : Pubkey) (p a m i s f : AccountInfo) (rest : List AccountInfo)
      (d : List Nat) (l : List Link) (ic hd : List Nat),
      (process_create_info env pid (p :: a :: m :: i :: s :: f :: rest) d l ic hd).fst =
        Except.ok () →
      ∃ body,
        serTokenInfo (TokenInfo.V1 ⟨env.pubkeyToString m.key, d, l, ⟨ic, hd⟩,
            env.clockUnixTimestamp, env.clockUnixTimestamp⟩) = some body ∧
        (process_create_info env pid (p :: a :: m :: i :: s :: f :: rest) d l ic hd).snd =
          [Effect.transfer p.key f.key fee_amount,
           Effect.createAccount p.key i.key
             (env.rentMinimumBalance (MAGIC_BYTE :: DATA_VERSION :: body).length)
             (MAGIC_BYTE :: DATA_VERSION :: body).length pid,
           Effect.writeData i.key (MAGIC_BYTE :: DATA_VERSION :: body)] := by
  intro env pid p a m i s f rest d l ic hd h
  have h1 : ¬ p.is_signer = false := by
    intro hh; simp [process_create_info, hh] at h
  have h2 : ¬ a.is_signer = false := by
    intro hh; simp [process_create_info, h1, hh] at h
  have h3 : ¬ a.key ≠ AUTHORITY := by
    intro hh; simp [process_create_info, h1, h2, hh] at h
  have h4 : ¬ f.key ≠ FEE_RECEIVER := by
    intro hh; simp [process_create_info, h1, h2, h3, hh] at h
  have h5 : ¬ p.lamports < fee_amount := by
    intro hh; simp [process_create_info, h1, h2, h3, h4, hh] at h
  have h6 : ¬ (find_info_account env m.key pid).1 ≠ i.key := by
    intro hh; simp [process_create_info, h1, h2, h3, h4, h5, hh] at h
  have h7 : ¬ i.data ≠ [] := by
    intro hh; simp [process_create_info, h1, h2, h3, h4, h5, h6, hh] at h
  have h8 : ¬ i.owner ≠ s.key := by
    intro hh; simp [process_create_info, h1, h2, h3, h4, h5, h6, h7, hh] at h
  rcases hser : serTokenInfo (TokenInfo.V1 ⟨env.pubkeyToString m.key, d, l, ⟨ic, hd⟩,
      env.clockUnixTimestamp, env.clockUnixTimestamp⟩) with _ | body
  · simp [process_create_info, h1, h2, h3, h4, h5, h6, h7, h8, hser] at h
  · refine ⟨body, rfl, ?_⟩
    simp [process_create_info, h1, h2, h3, h4, h5, h6, h7, h8, hser]

/-- Claim C6: after a successful creation the record account holds exactly
the bytes magic, version, then the Borsh-tagged TokenInfo encoding of the
record whose mint is the textual form of the token identifier; its data
length equals the length of that encoding, and it is owned by this
program. -/
theorem record_bytes_on_success :
    ∀ (env : Env) (pid : Pubkey) (p a m i s f : AccountInfo) (rest : List AccountInfo)
      (d : List Nat) (l : List Link) (ic hd : List Nat) (st : Pubkey → StoredAccount),
      (process_create_info env pid (p :: a :: m :: i :: s :: f :: rest) d l ic hd).fst =
        Except.ok () →
      ∃ body,
        serTokenInfo (TokenInfo.V1 ⟨env.pubkeyToString m.key, d, l, ⟨ic, hd⟩,
            env.clockUnixTimestamp, env.clockUnixTimestamp⟩) = some body ∧
        ((applyEffects st
            (process_create_info env pid (p :: a :: m :: i :: s :: f :: rest) d l ic hd).snd)
          i.key).data = MAGIC_BYTE :: DATA_VERSION :: body ∧
        ((applyEffects st
            (process_create_info env pid (p :: a :: m :: i :: s :: f :: rest) d l ic hd).snd)
          i.key).owner = pid ∧
        ((applyEffects st
            (process_create_info env pid (p :: a :: m :: i :: s :: f :: rest) d l ic hd).snd)
          i.key).data.length = (MAGIC_BYTE :: DATA_VERSION :: body).length := by
  intro env pid p a m i s f rest d l ic hd st h
  obtain ⟨body, hser, htr⟩ := create_success_trace env pid p a m i s f rest d l ic hd h
  rw [htr]
  refine ⟨body, hser, ?_, ?_, ?_⟩ <;>
    simp [applyEffects, applyEffect, updAcct]

/-- Witness for C6: owner of the concrete created record is the program. -/
theorem record_bytes_on_success_witness :
    ((applyEffects stInit
        (process_create_info envTest [7]
          [payerRich, authAcct, mintAcct, infoEmpty, sysAcct, feeAcct] [] [] [] []).snd)
      [4]).owner = [7] := by
  obtain ⟨body, hser, hdata, howner, hlen⟩ :=
    record_bytes_on_success envTest [7] payerRich authAcct mintAcct infoEmpty sysAcct feeAcct
      [] [] [] [] [] stInit (by rfl)
  exact howner

/-- Claim C7: the first two bytes of every record persisted by a successful
creation are the fixed magic and version constants 0xAB and 1. -/
theorem record_header_on_success :
    ∀ (env : Env) (pid : Pubkey) (p a m i s f : AccountInfo) (rest : List AccountInfo)
      (d : List Nat) (l : List Link) (ic hd : List Nat) (st : Pubkey → StoredAccount),
      (process_create_info env pid (p :: a :: m :: i :: s :: f :: rest) d l ic hd).fst =
        Except.ok () →
      ((applyEffects st
          (process_create_info env pid (p :: a :: m :: i :: s :: f :: rest) d l ic hd).snd)
        i.key).data.take 2 = [MAGIC_BYTE, DATA_VERSION] := by
  intro env pid p a m i s f rest d l ic hd st h
  obtain ⟨body, hser, htr⟩ := create_success_trace env pid p a m i s f rest d l ic hd h
  rw [htr]
  simp [applyEffects, applyEffect, updAcct]

/-- Witness for C7 at a concrete successful creation. -/
theorem record_header_on_success_witness :
    ((applyEffects stInit
        (process_create_info envTest [7]
          [payerRich, authAcct, mintAcct, infoEmpty, sysAcct, feeAcct] [] [] [] []).snd)
      [4]).data.take 2 = [MAGIC_BYTE, DATA_VERSION] :=
  record_header_on_success envTest [7] payerRich authAcct mintAcct infoEmpty sysAcct feeAcct
    [] [] [] [] [] stInit (by rfl)

/-- Claim C8: the record stored by a successful creation has
creation_timestamp equal to update_timestamp, both the ledger clock value
read during the run. -/
theorem timestamps_on_success :
    ∀ (env : Env) (pid : Pubkey) (p a m i s f : AccountInfo) (rest : List AccountInfo)
      (d : List Nat) (l : List Link) (ic hd : List Nat) (st : Pubkey → StoredAccount),
      (process_create_info env pid (p :: a :: m :: i :: s :: f :: rest) d l ic hd).fst =
        Except.ok () →
      ∃ (v : TokenInfoV1) (body : List Nat),
        v.creation_timestamp = env.clockUnixTimestamp ∧
        v.update_timestamp = env.clockUnixTimestamp ∧
        v.creation_timestamp = v.update_timestamp ∧
        serTokenInfo (TokenInfo.V1 v) = some body ∧
        ((applyEffects st
            (process_create_info env pid (p :: a :: m :: i :: s :: f :: rest) d l ic hd).snd)
          i.key).data = MAGIC_BYTE :: DATA_VERSION :: body := by
  intro env pid p a m i s f rest d l ic hd st h
  obtain ⟨body, hser, htr⟩ := create_success_trace env pid p a m i s f rest d l ic hd h
  refine ⟨⟨env.pubkeyToString m.key, d, l, ⟨ic, hd⟩,
      env.clockUnixTimestamp, env.clockUnixTimestamp⟩, body, rfl, rfl, rfl, hser, ?_⟩
  rw [htr]
  simp [applyEffects, applyEffect, updAcct]

/-- Witness for C8 at a concrete successful creation. -/
theorem timestamps_on_success_witness :
    ∃ (v : TokenInfoV1) (body : List Nat),
      v.creation_timestamp = envTest.clockUnixTimestamp ∧
      v.update_timestamp = envTest.clockUnixTimestamp ∧
      v.creation_timestamp = v.update_timestamp ∧
      serTokenInfo (TokenInfo.V1 v) = some body ∧
      ((applyEffects stInit
          (process_create_info envTest [7]
            [payerRich, authAcct, mintAcct, infoEmpty, sysAcct, feeAcct] [] [] [] []).snd)
        [4]).data = MAGIC_BYTE :: DATA_VERSION :: body :=
  timestamps_on_success envTest [7] payerRich authAcct mintAcct infoEmpty sysAcct feeAcct
    [] [] [] [] [] stInit (by rfl)

/-! ### Soundness of the instruction parser: anything it accepts is a
canonical encoding -/

/-- All entries of the buffer are bytes. -/
def BytesOk (bs : List Nat) : Prop := ∀ b ∈ bs, b < 256

lemma bytesOk_suffix {e r : List Nat} (h : BytesOk (e ++ r)) : BytesOk r :=
  fun b hb => h b (by simp [hb])

lemma parseU32_sound {bs : List Nat} {n : Nat} {r : List Nat}
    (hb : BytesOk bs) (h : parseU32 bs = some (n, r)) :
    n < 4294967296 ∧ bs = u32le n ++ r := by
  rcases bs with _ | ⟨b0, _ | ⟨b1, _ | ⟨b2, _ | ⟨b3, rest⟩⟩⟩⟩
  · simp [parseU32] at h
  · simp [parseU32] at h
  · simp [parseU32] at h
  · simp [parseU32] at h
  · simp only [parseU32, Option.some.injEq, Prod.mk.injEq] at h
    obtain ⟨hn, hr⟩ := h
    subst hn; subst hr
    have hb0 : b0 < 256 := hb b0 (by simp)
    have hb1 : b1 < 256 := hb b1 (by simp)
    have hb2 : b2 < 256 := hb b2 (by simp)
    have hb3 : b3 < 256 := hb b3 (by simp)
    refine ⟨by omega, ?_⟩
    simp only [u32le, List.cons_append, List.nil_append, List.cons.injEq]
    refine ⟨by omega, by omega, by omega, by omega, trivial⟩

lemma parseBytes_sound {n : Nat} {bs s r : List Nat}
    (h : parseBytes n bs = some (s, r)) :
    s.length = n ∧ bs = s ++ r := by
  unfold parseBytes at h
  split_ifs at h with hle
  · simp only [Option.some.injEq, Prod.mk.injEq] at h
    obtain ⟨hs, hr⟩ := h
    subst hs; subst hr
    exact ⟨by simp [List.length_take, Nat.min_eq_left hle],
           (List.take_append_drop n bs).symm⟩

lemma parseString_sound {bs s r : List Nat} (hb : BytesOk bs)
    (h : parseString bs = some (s, r)) :
    ∃ e, serString s = some e ∧ bs = e ++ r ∧ BytesOk r := by
  unfold parseString at h
  cases hu : parseU32 bs with
  | none => rw [hu] at h; simp at h
  | some v =>
    obtain ⟨n, r1⟩ := v
    rw [hu] at h
    simp at h
    obtain ⟨hlt, hbs⟩ := parseU32_sound hb hu
    obtain ⟨hlen, hr1⟩ := parseBytes_sound h
    refine ⟨u32le n ++ s, ?_, ?_, ?_⟩
    · simp [serString, hlen, hlt]
    · rw [hbs, hr1]; simp [List.append_assoc]
    · rw [hbs] at hb
      have hb1 : BytesOk r1 := bytesOk_suffix hb
      rw [hr1] at hb1
      exact bytesOk_suffix hb1

lemma parseLink_sound {bs : List Nat} {l : Link} {r : List Nat} (hb : BytesOk bs)
    (h : parseLink bs = some (l, r)) :
    ∃ e, serLink l = some e ∧ bs = e ++ r ∧ BytesOk r := by
  unfold parseLink at h
  cases h1 : parseString bs with
  | none => rw [h1] at h; simp at h
  | some v1 =>
    obtain ⟨a, r1⟩ := v1
    rw [h1] at h
    simp at h
    cases h2 : parseString r1 with
    | none => rw [h2] at h; simp at h
    | some v2 =>
      obtain ⟨b, r2⟩ := v2
      rw [h2] at h
      simp at h
      obtain ⟨hl, hr⟩ := h
      subst hl; subst hr
      obtain ⟨e1, hs1, hbs1, hb1⟩ := parseString_sound hb h1
      obtain ⟨e2, hs2, hbs2, hb2⟩ := parseString_sound hb1 h2
      refine ⟨e1 ++ e2, ?_, ?_, hb2⟩
      · simp [serLink, hs1, hs2]
      · rw [hbs1, hbs2]; simp [List.append_assoc]

lemma parseLinks_sound : ∀ (n : Nat) (bs : List Nat) (ls : List Link) (r : List Nat),
    BytesOk bs → parseLinks n bs = some (ls, r) →
    ls.length = n ∧ ∃ e, serLinkList ls = some e ∧ bs = e ++ r ∧ BytesOk r := by
  intro n
  induction n with
  | zero =>
    intro bs ls r hb h
    simp only [parseLinks, Option.some.injEq, Prod.mk.injEq] at h
    obtain ⟨hls, hr⟩ := h
    subst hls; subst hr
    refine ⟨rfl, [], rfl, ?_, hb⟩
    simp
  | succ k ih =>
    intro bs ls r hb h
    simp only [parseLinks] at h
    cases h1 : parseLink bs with
    | none => rw [h1] at h; simp at h
    | some v1 =>
      obtain ⟨l, r1⟩ := v1
      rw [h1] at h
      simp at h
      cases h2 : parseLinks k r1 with
      | none => rw [h2] at h; simp at h
      | some v2 =>
        obtain ⟨ls1, r2⟩ := v2
        rw [h2] at h
        simp at h
        obtain ⟨hls, hr⟩ := h
        subst hls; subst hr
        obtain ⟨e1, he1, hbs1, hb1⟩ := parseLink_sound hb h1
        obtain ⟨hlen, e2, he2, hbs2, hb2⟩ := ih r1 ls1 r2 hb1 h2
        refine ⟨by simp [hlen], e1 ++ e2, ?_, ?_, hb2⟩
        · simp [serLinkList, he1, he2]
        · rw [hbs1, hbs2]; simp [List.append_assoc]

lemma parseInstruction_sound {bs : List Nat} {i : Instruction} {r : List Nat}
    (hb : BytesOk bs) (h : parseInstruction bs = some (i, r)) :
    ∃ e, serInstruction i = some e ∧ bs = e ++ r := by
  unfold parseInstruction at h
  cases bs with
  | nil => simp [parseU8] at h
  | cons tag r0 =>
    by_cases ht : tag = 0
    · subst ht
      simp only [parseU8] at h
      simp at h
      have hb0 : BytesOk r0 := fun b hbm => hb b (by simp [hbm])
      cases hS1 : parseString r0 with
      | none => rw [hS1] at h; simp at h
      | some v1 =>
        obtain ⟨d, r1⟩ := v1
        rw [hS1] at h
        simp at h
        cases hU : parseU32 r1 with
        | none => rw [hU] at h; simp at h
        | some v2 =>
          obtain ⟨cnt, r2⟩ := v2
          rw [hU] at h
          simp at h
          cases hL : parseLinks cnt r2 with
          | none => rw [hL] at h; simp at h
          | some v3 =>
            obtain ⟨ls, r3⟩ := v3
            rw [hL] at h
            simp at h
            cases hS4 : parseString r3 with
            | none => rw [hS4] at h; simp at h
            | some v4 =>
              obtain ⟨ic, r4⟩ := v4
              rw [hS4] at h
              simp at h
              cases hS5 : parseString r4 with
              | none => rw [hS5] at h; simp at h
              | some v5 =>
                obtain ⟨hd, r5⟩ := v5
                rw [hS5] at h
                simp at h
                obtain ⟨hi, hr⟩ := h
                subst hi; subst hr
                obtain ⟨e1, hse1, hbs1, hb1⟩ := parseString_sound hb0 hS1
                obtain ⟨hcnt, hbs2⟩ := parseU32_sound hb1 hU
                have hb2 : BytesOk r2 := by
                  rw [hbs2] at hb1
                  exact bytesOk_suffix hb1
                obtain ⟨hlen, e3, hse3, hbs3, hb3⟩ := parseLinks_sound cnt r2 ls r3 hb2 hL
                obtain ⟨e4, hse4, hbs4, hb4⟩ := parseString_sound hb3 hS4
                obtain ⟨e5, hse5, hbs5, hb5⟩ := parseString_sound hb4 hS5
                refine ⟨0 :: (e1 ++ (u32le cnt ++ e3) ++ e4 ++ e5), ?_, ?_⟩
                · simp [serInstruction, hse1, serVecLink, hlen, hcnt, hse3, hse4, hse5]
                · rw [hbs1, hbs2, hbs3, hbs4, hbs5]
                  simp [List.append_assoc]
    · simp [parseU8, ht] at h

/-- Claim C5: for every byte buffer, the decoder either accepts it, in which
case the buffer is exactly the canonical Borsh encoding of the decoded
instruction, or fails with InvalidInstructionData (the InvalidInstruction
of the spec); so every buffer with a wrong tag, truncated fields, or
trailing bytes is rejected.  The decoder is a pure function: it touches no
account state. -/
theorem decode_rejects_noncanonical :
    ∀ bs : List Nat, (∀ b ∈ bs, b < 256) →
      (∃ i, decodeInstruction bs = Except.ok i ∧ serInstruction i = some bs) ∨
      decodeInstruction bs = Except.error ProgramError.InvalidInstructionData := by
  intro bs hb
  unfold decodeInstruction
  cases hp : parseInstruction bs with
  | none => exact Or.inr rfl
  | some v =>
    obtain ⟨i, rest⟩ := v
    cases rest with
    | nil =>
      left
      refine ⟨i, rfl, ?_⟩
      obtain ⟨e, hse, hbs⟩ := parseInstruction_sound hb hp
      rw [hbs]
      simpa using hse
    | cons x xs => exact Or.inr rfl

/-- Witness for C5: the one-byte buffer with a wrong variant tag is
rejected with InvalidInstructionData. -/
theorem decode_rejects_noncanonical_witness :
    decodeInstruction [1] = Except.error ProgramError.InvalidInstructionData := by
  rcases decode_rejects_noncanonical [1] (by decide) with ⟨i, hok, -⟩ | herr
  · rw [show decodeInstruction [1] = Except.error ProgramError.InvalidInstructionData
      from rfl] at hok
    simp at hok
  · exact herr

end LaunchLock
